import Mathlib

/-!
Shallow embedding of the command-instance core of libweave
(`src/libweave/src/commands/command_instance.cc`), together with proofs
about its lifecycle state machine, construction (`FromJson`) and
serialization (`ToJson`).
-/

namespace Weave

/-- Command lifecycle status, mirroring `CommandStatus` in the source. -/
inductive CommandStatus where
  | kQueued
  | kInProgress
  | kPaused
  | kError
  | kDone
  | kCancelled
  | kAborted
  | kExpired
deriving DecidableEq, Repr

/-- Origin of a command request, mirroring `CommandOrigin`. -/
inductive CommandOrigin where
  | kLocal
  | kCloud
deriving DecidableEq, Repr

/-- The string associated to each status by the `kMapStatus` table. -/
def statusToString : CommandStatus → String
  | .kQueued => "queued"
  | .kInProgress => "inProgress"
  | .kPaused => "paused"
  | .kError => "error"
  | .kDone => "done"
  | .kCancelled => "cancelled"
  | .kAborted => "aborted"
  | .kExpired => "expired"

/-- Error codes raised by the command core (domains and printf payloads of
`Error::AddTo` collapsed to the code plus its relevant arguments). -/
inductive ErrorCode where
  | commandDestroyed
  | invalidStateTransition (fromStatus toStatus : CommandStatus)
  | objectExpected
  | propertyMissing
  | invalidCommandName (name : String)
  | commandFailed (name : String)
  | invalidParameterValue
  | typeMismatch
  | unexpectedProperty
deriving DecidableEq, Repr

/-- An error as accumulated through `ErrorPtr*`: a chain of codes, the most
recently added (outermost) code first, inner causes after it. -/
def ErrorChain : Type := List ErrorCode
deriving instance DecidableEq, Repr for ErrorChain

mutual

/-- A typed, schema-conformant value (`PropValue` tree), with object fields
kept as an explicit field list (`PropFields`). Equality is structural. -/
inductive PropVal where
  | intVal (i : Int)
  | boolVal (b : Bool)
  | stringVal (s : String)
  | objVal (fields : PropFields)

/-- Named typed values, as held in object-typed `PropVal`s and in
`parameters_`, `progress_` and `results_`. -/
inductive PropFields where
  | nil
  | cons (key : String) (val : PropVal) (rest : PropFields)

end

deriving instance DecidableEq for PropVal, PropFields
deriving instance Repr for PropVal, PropFields

/-- `ValueMap`: the typed key/value store of a command instance. -/
def ValueMap : Type := PropFields

instance : DecidableEq ValueMap := inferInstanceAs (DecidableEq PropFields)
instance : Repr ValueMap := inferInstanceAs (Repr PropFields)

/-- The empty `ValueMap`. -/
def ValueMap.empty : ValueMap := PropFields.nil

mutual

/-- Untyped structured document (`base::Value`). -/
inductive JValue where
  | nullJ
  | boolJ (b : Bool)
  | intJ (i : Int)
  | stringJ (s : String)
  | listJ (items : JList)
  | dictJ (entries : JDict)

/-- A list of untyped values (`base::ListValue`). -/
inductive JList where
  | nil
  | cons (head : JValue) (tail : JList)

/-- A JSON dictionary (`base::DictionaryValue`): keyed entries. -/
inductive JDict where
  | nil
  | cons (key : String) (val : JValue) (rest : JDict)

end

deriving instance DecidableEq for JValue, JList, JDict
deriving instance Repr for JValue, JList, JDict

/-- Key lookup in a dictionary (`base::DictionaryValue::Get`). -/
def jlookup : JDict → String → Option JValue
  | .nil, _ => none
  | .cons k v rest, key => if k = key then some v else jlookup rest key

/-- Dictionary concatenation (setting additional keys at the end). -/
def JDict.append : JDict → JDict → JDict
  | .nil, d => d
  | .cons k v rest, d => .cons k v (rest.append d)

/-- `GetString(key, out)`: succeeds exactly when the key is present and
holds a string value. -/
def getDictString (d : JDict) (key : String) : Option String :=
  match jlookup d key with
  | some (.stringJ s) => some s
  | _ => none

/-- `GetAsDictionary`: succeeds exactly on a dictionary value. -/
def JValue.asDictionary : JValue → Option JDict
  | .dictJ entries => some entries
  | _ => none

/-- The keys of a dictionary, in order. -/
def JDict.keys : JDict → List String
  | .nil => []
  | .cons k _ rest => k :: rest.keys

/-- Modelled from the spec: a `CommandDefinition` (§2, §4.2) carries the
parameter, progress and results schemas, and §4.1's schema-directed
conversion `TypedValueFromJson` turns an untyped document into a validated
`ValueMap` or a single validation error (the conversion's implementation,
`src/commands/schema_utils.cc` / `prop_types.cc`, is not among the given
sources). Each schema is therefore represented by its induced validation
function. -/
structure CommandDefinition where
  validateParameters : JDict → Except ErrorChain ValueMap
  validateProgress : JDict → Except ErrorChain ValueMap
  validateResults : JDict → Except ErrorChain ValueMap

/-- Observer callbacks of `CommandInstance::Observer`, recorded in the
order they are fired by an operation. -/
inductive Notification where
  | onStatusChanged
  | onProgressChanged
  | onResultsChanged
  | onCommandDestroyed
deriving DecidableEq, Repr

/-- State of one `CommandInstance`: its data members. `commandDefinition`
is `none` when the backing definition has been torn down
(`command_definition_ == nullptr`); `hasQueue` mirrors `queue_ != nullptr`;
`error` mirrors the owned `error_` member. -/
structure CommandInstance where
  id : String := ""
  name : String
  origin : CommandOrigin
  commandDefinition : Option CommandDefinition
  parameters : ValueMap
  progress : ValueMap := ValueMap.empty
  results : ValueMap := ValueMap.empty
  status : CommandStatus := .kQueued
  error : Option ErrorChain := none
  hasQueue : Bool := false

/-- Outcome of one operation on a `CommandInstance`: the boolean return
value, the updated instance, the observer notifications fired (in order),
the `DelayedRemove` calls issued to the owning queue (by command id), and
what was appended to the caller's `ErrorPtr`. -/
structure OpResult where
  ok : Bool
  inst : CommandInstance
  notes : List Notification
  queueOps : List String
  err : Option ErrorChain

/-- `CommandInstance::SetStatus`: same-status requests succeed as no-ops;
a transition to `kQueued` is rejected; transitions out of a terminal
status are rejected; all remaining transitions succeed and notify
observers. -/
def CommandInstance.SetStatus (s : CommandInstance) (status : CommandStatus) : OpResult :=
  if status = s.status then
    { ok := true, inst := s, notes := [], queueOps := [], err := none }
  else if status = .kQueued then
    { ok := false, inst := s, notes := [], queueOps := [],
      err := some [.invalidStateTransition s.status status] }
  else
    match s.status with
    | .kDone | .kCancelled | .kAborted | .kExpired =>
      { ok := false, inst := s, notes := [], queueOps := [],
        err := some [.invalidStateTransition s.status status] }
    | .kQueued | .kInProgress | .kPaused | .kError =>
      { ok := true, inst := { s with status := status },
        notes := [.onStatusChanged], queueOps := [], err := none }

/-- `CommandInstance::RemoveFromQueue`: the `DelayedRemove` calls it
issues — one with the instance's id when a queue is attached. -/
def CommandInstance.RemoveFromQueue (s : CommandInstance) : List String :=
  if s.hasQueue then [s.id] else []

/-- `CommandInstance::SetProgress`: validates against the progress schema,
then changes status to `kInProgress` even if the progress is unchanged,
then replaces `progress_` and notifies only when the value differs. -/
def CommandInstance.SetProgress (s : CommandInstance) (progress : JDict) : OpResult :=
  match s.commandDefinition with
  | none =>
    { ok := false, inst := s, notes := [], queueOps := [],
      err := some [.commandDestroyed] }
  | some commandDefinition =>
    match commandDefinition.validateProgress progress with
    | .error e => { ok := false, inst := s, notes := [], queueOps := [], err := some e }
    | .ok obj =>
      let r := s.SetStatus .kInProgress
      if r.ok = false then r
      else if obj ≠ r.inst.progress then
        { ok := true, inst := { r.inst with progress := obj },
          notes := r.notes ++ [.onProgressChanged], queueOps := [], err := none }
      else
        { ok := true, inst := r.inst, notes := r.notes, queueOps := [], err := none }

/-- `CommandInstance::SetResults`: validates against the results schema,
replaces `results_` (with notification) when the value differs, then
changes status to `kDone` even if the result is unchanged, then calls
`RemoveFromQueue`. -/
def CommandInstance.SetResults (s : CommandInstance) (results : JDict) : OpResult :=
  match s.commandDefinition with
  | none =>
    { ok := false, inst := s, notes := [], queueOps := [],
      err := some [.commandDestroyed] }
  | some commandDefinition =>
    match commandDefinition.validateResults results with
    | .error e => { ok := false, inst := s, notes := [], queueOps := [], err := some e }
    | .ok obj =>
      let step :=
        if obj ≠ s.results then
          ({ s with results := obj }, [Notification.onResultsChanged])
        else (s, ([] : List Notification))
      let r := step.1.SetStatus .kDone
      { ok := r.ok, inst := r.inst, notes := step.2 ++ r.notes,
        queueOps := r.inst.RemoveFromQueue, err := r.err }

/-- `CommandInstance::SetError`: replaces `error_` with a clone of the
supplied error (clearing it on null), then requests the `kError` status. -/
def CommandInstance.SetError (s : CommandInstance) (commandError : Option ErrorChain) : OpResult :=
  CommandInstance.SetStatus { s with error := commandError } .kError

/-- `CommandInstance::Pause`: requests the `kPaused` status. -/
def CommandInstance.Pause (s : CommandInstance) : OpResult :=
  s.SetStatus .kPaused

/-- `CommandInstance::Abort`: replaces `error_`, requests the `kAborted`
status, then calls `RemoveFromQueue` regardless of the outcome. -/
def CommandInstance.Abort (s : CommandInstance) (commandError : Option ErrorChain) : OpResult :=
  let r := CommandInstance.SetStatus { s with error := commandError } .kAborted
  { r with queueOps := r.inst.RemoveFromQueue }

/-- `CommandInstance::Cancel`: requests the `kCancelled` status, then calls
`RemoveFromQueue` regardless of the outcome. -/
def CommandInstance.Cancel (s : CommandInstance) : OpResult :=
  let r := s.SetStatus .kCancelled
  { r with queueOps := r.inst.RemoveFromQueue }

/-- `GetCommandParameters`: reads the `parameters` property (an absent
property is treated as an empty dictionary; a non-dictionary one is an
`objectExpected` error) and validates it against the definition's
parameter schema. -/
def GetCommandParameters (json : JDict) (commandDef : CommandDefinition) :
    Except ErrorChain ValueMap :=
  match jlookup json "parameters" with
  | some paramsValue =>
    match paramsValue.asDictionary with
    | some params => commandDef.validateParameters params
    | none => .error [.objectExpected]
  | none => commandDef.validateParameters JDict.nil

/-- Result of `CommandInstance::FromJson`: the returned instance (empty on
failure), the best-effort command id written through `command_id`, and the
error appended to the caller's `ErrorPtr`. -/
structure FromJsonResult where
  inst : Option CommandInstance
  commandId : String
  err : Option ErrorChain

/-- `CommandInstance::FromJson`: requires a dictionary, extracts the id
best-effort, then the name, looks the name up in the dictionary
(`CommandDictionary::FindCommand`, here an abstract lookup), validates the
parameters, and constructs the instance. -/
def CommandInstance.FromJson (value : JValue) (origin : CommandOrigin)
    (dictionary : String → Option CommandDefinition) : FromJsonResult :=
  match value.asDictionary with
  | none => { inst := none, commandId := "", err := some [.objectExpected] }
  | some json =>
    let commandId := (getDictString json "id").getD ""
    match getDictString json "name" with
    | none => { inst := none, commandId := commandId, err := some [.propertyMissing] }
    | some commandName =>
      match dictionary commandName with
      | none =>
        { inst := none, commandId := commandId,
          err := some [.invalidCommandName commandName] }
      | some commandDef =>
        match GetCommandParameters json commandDef with
        | .error e =>
          { inst := none, commandId := commandId,
            err := some (.commandFailed commandName :: e) }
        | .ok parameters =>
          { inst := some { id := commandId, name := commandName, origin := origin,
                           commandDefinition := some commandDef,
                           parameters := parameters },
            commandId := commandId, err := none }

mutual

/-- Modelled from the spec: `to_document` on one typed value (§4.1); the
implementation `TypedValueToJson` (`src/commands/schema_utils.cc`) is not
among the given sources. -/
def propValToJson : PropVal → JValue
  | .intVal i => .intJ i
  | .boolVal b => .boolJ b
  | .stringVal s => .stringJ s
  | .objVal fields => .dictJ (propFieldsToJson fields)

/-- Modelled from the spec: `to_document` on an object's fields (§4.1). -/
def propFieldsToJson : PropFields → JDict
  | .nil => .nil
  | .cons k v rest => .cons k (propValToJson v) (propFieldsToJson rest)

end

/-- `TypedValueToJson` on a `ValueMap`: the serialized dictionary. -/
def TypedValueToJson (m : ValueMap) : JValue :=
  .dictJ (propFieldsToJson m)

/-- A printable name for an error code. -/
def errorCodeName : ErrorCode → String
  | .commandDestroyed => "CommandDestroyed"
  | .invalidStateTransition _ _ => "InvalidStateTransition"
  | .objectExpected => "MalformedDocument"
  | .propertyMissing => "PropertyMissing"
  | .invalidCommandName _ => "InvalidCommandName"
  | .commandFailed _ => "CommandFailed"
  | .invalidParameterValue => "InvalidParameterValue"
  | .typeMismatch => "TypeMismatch"
  | .unexpectedProperty => "UnexpectedProperty"

/-- Modelled from the spec: the serialized form of a recorded error — the
spec fixes only that an `error` field is present exactly when an error has
been recorded (§4.4); represented here by the outermost error code. -/
def ErrorInfoToJson (e : ErrorChain) : JValue :=
  .dictJ (.cons "code"
    (.stringJ (match e with | [] => "" | c :: _ => errorCodeName c)) .nil)

/-- `CommandInstance::ToJson`: serializes id, name, parameters, progress,
results, the state string (per `kMapStatus`), and the error when one is
recorded. -/
def CommandInstance.ToJson (s : CommandInstance) : JDict :=
  .cons "id" (.stringJ s.id) (
  .cons "name" (.stringJ s.name) (
  .cons "parameters" (TypedValueToJson s.parameters) (
  .cons "progress" (TypedValueToJson s.progress) (
  .cons "results" (TypedValueToJson s.results) (
  .cons "state" (.stringJ (statusToString s.status)) (
  match s.error with
  | some e => .cons "error" (ErrorInfoToJson e) .nil
  | none => .nil))))))

/-- The terminal statuses of the lifecycle: `kDone`, `kCancelled`,
`kAborted`, `kExpired` (the statuses the `SetStatus` switch rejects as
transition sources). -/
def CommandStatus.isTerminalStatus : CommandStatus → Bool
  | .kDone | .kCancelled | .kAborted | .kExpired => true
  | .kQueued | .kInProgress | .kPaused | .kError => false

/-- Best-effort command id extraction, as performed by the prefix of
`FromJson`: the string under `id` when the document is a dictionary with a
string-valued `id`, the empty string otherwise. -/
def bestEffortId (value : JValue) : String :=
  match value.asDictionary with
  | some json => (getDictString json "id").getD ""
  | none => ""

/-- A command definition whose three schemas accept any document as the
empty value map (a concrete validator for instantiating the theorems). -/
def trivialDefinition : CommandDefinition where
  validateParameters := fun _ => .ok ValueMap.empty
  validateProgress := fun _ => .ok ValueMap.empty
  validateResults := fun _ => .ok ValueMap.empty

/-- A sample instance, attached to a queue, in the given status. -/
def instanceWithStatus (st : CommandStatus) : CommandInstance where
  id := "1"
  name := "lock.setConfig"
  origin := .kCloud
  commandDefinition := some trivialDefinition
  parameters := ValueMap.empty
  status := st
  hasQueue := true

/-- A one-field value map, for exhibiting value changes. -/
def sampleMap (i : Int) : ValueMap :=
  PropFields.cons "x" (.intVal i) PropFields.nil

theorem SetStatus_same (s : CommandInstance) :
    s.SetStatus s.status =
      { ok := true, inst := s, notes := [], queueOps := [], err := none } := by
  simp [CommandInstance.SetStatus]

theorem SetStatus_from_terminal (s : CommandInstance) (target : CommandStatus)
    (ht : s.status.isTerminalStatus = true) (hne : target ≠ s.status) :
    s.SetStatus target =
      { ok := false, inst := s, notes := [], queueOps := [],
        err := some [.invalidStateTransition s.status target] } := by
  unfold CommandInstance.SetStatus
  rw [if_neg hne]
  by_cases hq : target = CommandStatus.kQueued
  · rw [if_pos hq]
  · rw [if_neg hq]
    revert ht
    cases hs : s.status <;> intro ht <;>
      simp [CommandStatus.isTerminalStatus] at ht ⊢

theorem SetStatus_allowed (s : CommandInstance) (target : CommandStatus)
    (ht : s.status.isTerminalStatus = false) (hne : target ≠ s.status)
    (hq : target ≠ .kQueued) :
    s.SetStatus target =
      { ok := true, inst := { s with status := target },
        notes := [.onStatusChanged], queueOps := [], err := none } := by
  unfold CommandInstance.SetStatus
  rw [if_neg hne, if_neg hq]
  revert ht
  cases hs : s.status <;> intro ht <;>
    simp [CommandStatus.isTerminalStatus] at ht ⊢

theorem nonterminal_ne_terminal {t1 t2 : CommandStatus}
    (h1 : t1.isTerminalStatus = false) (h2 : t2.isTerminalStatus = true) :
    t1 ≠ t2 := by
  intro h
  rw [h, h2] at h1
  exact Bool.noConfusion h1

theorem Pause_from_terminal (s : CommandInstance)
    (ht : s.status.isTerminalStatus = true) :
    s.Pause =
      { ok := false, inst := s, notes := [], queueOps := [],
        err := some [.invalidStateTransition s.status .kPaused] } := by
  unfold CommandInstance.Pause
  exact SetStatus_from_terminal s .kPaused ht (nonterminal_ne_terminal rfl ht)

theorem SetError_from_terminal (s : CommandInstance) (ce : Option ErrorChain)
    (ht : s.status.isTerminalStatus = true) :
    s.SetError ce =
      { ok := false, inst := { s with error := ce }, notes := [], queueOps := [],
        err := some [.invalidStateTransition s.status .kError] } := by
  unfold CommandInstance.SetError
  exact SetStatus_from_terminal { s with error := ce } .kError ht
    (nonterminal_ne_terminal rfl ht)

theorem Abort_from_terminal (s : CommandInstance) (ce : Option ErrorChain)
    (ht : s.status.isTerminalStatus = true) (hne : s.status ≠ .kAborted) :
    s.Abort ce =
      { ok := false, inst := { s with error := ce }, notes := [],
        queueOps := s.RemoveFromQueue,
        err := some [.invalidStateTransition s.status .kAborted] } := by
  unfold CommandInstance.Abort
  rw [SetStatus_from_terminal { s with error := ce } .kAborted ht
    (fun h => hne h.symm)]
  rfl

theorem Cancel_from_terminal (s : CommandInstance)
    (ht : s.status.isTerminalStatus = true) (hne : s.status ≠ .kCancelled) :
    s.Cancel =
      { ok := false, inst := s, notes := [], queueOps := s.RemoveFromQueue,
        err := some [.invalidStateTransition s.status .kCancelled] } := by
  unfold CommandInstance.Cancel
  rw [SetStatus_from_terminal s .kCancelled ht (fun h => hne h.symm)]

theorem SetProgress_from_terminal (s : CommandInstance) (cd : CommandDefinition)
    (pdoc : JDict) (hcd : s.commandDefinition = some cd)
    (ht : s.status.isTerminalStatus = true) :
    ((s.SetProgress pdoc).ok = false ∧ (s.SetProgress pdoc).inst = s) ∧
    (∀ pobj, cd.validateProgress pdoc = .ok pobj →
      (s.SetProgress pdoc).err =
        some [.invalidStateTransition s.status .kInProgress]) := by
  have hss := SetStatus_from_terminal s .kInProgress ht
    (nonterminal_ne_terminal rfl ht)
  cases hv : cd.validateProgress pdoc with
  | error e =>
    have heq : s.SetProgress pdoc =
        { ok := false, inst := s, notes := [], queueOps := [], err := some e } := by
      simp [CommandInstance.SetProgress, hcd, hv]
    rw [heq]
    exact ⟨⟨rfl, rfl⟩, fun pobj hv2 => Except.noConfusion hv2⟩
  | ok obj =>
    have heq : s.SetProgress pdoc =
        { ok := false, inst := s, notes := [], queueOps := [],
          err := some [.invalidStateTransition s.status .kInProgress] } := by
      simp [CommandInstance.SetProgress, hcd, hv, hss]
    rw [heq]
    exact ⟨⟨rfl, rfl⟩, fun pobj _ => rfl⟩

theorem SetResults_from_terminal (s : CommandInstance) (cd : CommandDefinition)
    (rdoc : JDict) (robj : ValueMap) (hcd : s.commandDefinition = some cd)
    (ht : s.status.isTerminalStatus = true)
    (hv : cd.validateResults rdoc = .ok robj) (hd : s.status ≠ .kDone) :
    (s.SetResults rdoc).ok = false ∧
    (s.SetResults rdoc).err = some [.invalidStateTransition s.status .kDone] ∧
    (s.SetResults rdoc).inst.status = s.status ∧
    (s.SetResults rdoc).inst.progress = s.progress ∧
    (s.SetResults rdoc).inst.results = robj := by
  by_cases hne : robj = s.results
  · subst hne
    have hss := SetStatus_from_terminal s .kDone ht (fun h => hd h.symm)
    have heq : s.SetResults rdoc =
        { ok := false, inst := s, notes := [], queueOps := s.RemoveFromQueue,
          err := some [.invalidStateTransition s.status .kDone] } := by
      simp [CommandInstance.SetResults, hcd, hv, hss]
    rw [heq]
    exact ⟨rfl, rfl, rfl, rfl, rfl⟩
  · have hss := SetStatus_from_terminal
      { s with results := robj, commandDefinition := some cd } .kDone ht
      (fun h => hd h.symm)
    have heq : s.SetResults rdoc =
        { ok := false,
          inst := { s with results := robj, commandDefinition := some cd },
          notes := [.onResultsChanged],
          queueOps := CommandInstance.RemoveFromQueue
            { s with results := robj, commandDefinition := some cd },
          err := some [.invalidStateTransition s.status .kDone] } := by
      simp [CommandInstance.SetResults, hcd, hv, hss, hne]
    rw [heq]
    exact ⟨rfl, rfl, rfl, rfl, rfl⟩

/-- A command definition whose results schema validates any document to the
one-field map with `x = 2`. -/
def resultsDefinition : CommandDefinition where
  validateParameters := fun _ => .ok ValueMap.empty
  validateProgress := fun _ => .ok ValueMap.empty
  validateResults := fun _ => .ok (sampleMap 2)

/-- A cancelled instance that stores results `x = 1` and whose results
schema validates any document to `x = 2`. -/
def cancelledWithResults : CommandInstance :=
  { instanceWithStatus .kCancelled with
      commandDefinition := some resultsDefinition, results := sampleMap 1 }

/-- C1 counterexample. Transitions out of a terminal status do not all
fail and do not all leave the instance unchanged: (a) a `SetStatus`
request from `kDone` to `kDone` itself succeeds; (b) `SetResults` on a
cancelled instance fails with `InvalidStateTransition` yet replaces the
stored results (`x = 1` becomes `x = 2`) and fires a results-changed
notification. -/
theorem terminal_finality_counterexample :
    ((instanceWithStatus .kDone).SetStatus .kDone).ok = true ∧
    ((instanceWithStatus .kDone).SetStatus .kDone).err = none ∧
    (cancelledWithResults.SetResults JDict.nil).ok = false ∧
    (cancelledWithResults.SetResults JDict.nil).err =
      some [.invalidStateTransition .kCancelled .kDone] ∧
    cancelledWithResults.results = sampleMap 1 ∧
    (cancelledWithResults.SetResults JDict.nil).inst.results = sampleMap 2 ∧
    (cancelledWithResults.SetResults JDict.nil).notes =
      [.onResultsChanged] := by
  refine ⟨rfl, rfl, ?_, ?_, rfl, ?_, ?_⟩ <;> decide

/-- C1 (amended). For a terminal status and any distinct target, the
transition fails with `InvalidStateTransition` and `SetStatus`,
`Pause`, `SetError`, `Abort` (target distinct), `Cancel` (target
distinct) and `SetProgress` leave status, progress and results unchanged;
a request targeting the terminal status itself succeeds as a no-op; and
`SetResults` (with a document that validates, from a terminal status
other than `kDone`) fails with `InvalidStateTransition`, leaves status
and progress unchanged, but stores the validated results value. -/
theorem terminal_finality (s : CommandInstance) (cd : CommandDefinition)
    (target : CommandStatus) (pdoc rdoc : JDict) (ce : Option ErrorChain)
    (hcd : s.commandDefinition = some cd)
    (ht : s.status.isTerminalStatus = true)
    (hne : target ≠ s.status) :
    s.SetStatus target =
      { ok := false, inst := s, notes := [], queueOps := [],
        err := some [.invalidStateTransition s.status target] } ∧
    s.SetStatus s.status =
      { ok := true, inst := s, notes := [], queueOps := [], err := none } ∧
    s.Pause =
      { ok := false, inst := s, notes := [], queueOps := [],
        err := some [.invalidStateTransition s.status .kPaused] } ∧
    ((s.SetError ce).ok = false ∧
      (s.SetError ce).inst.status = s.status ∧
      (s.SetError ce).inst.progress = s.progress ∧
      (s.SetError ce).inst.results = s.results ∧
      (s.SetError ce).err = some [.invalidStateTransition s.status .kError]) ∧
    (s.status ≠ .kAborted →
      (s.Abort ce).ok = false ∧
      (s.Abort ce).inst.status = s.status ∧
      (s.Abort ce).inst.progress = s.progress ∧
      (s.Abort ce).inst.results = s.results ∧
      (s.Abort ce).err = some [.invalidStateTransition s.status .kAborted]) ∧
    (s.status ≠ .kCancelled →
      s.Cancel =
        { ok := false, inst := s, notes := [], queueOps := s.RemoveFromQueue,
          err := some [.invalidStateTransition s.status .kCancelled] }) ∧
    ((s.SetProgress pdoc).ok = false ∧ (s.SetProgress pdoc).inst = s) ∧
    (∀ pobj, cd.validateProgress pdoc = .ok pobj →
      (s.SetProgress pdoc).err =
        some [.invalidStateTransition s.status .kInProgress]) ∧
    (∀ robj, cd.validateResults rdoc = .ok robj → s.status ≠ .kDone →
      (s.SetResults rdoc).ok = false ∧
      (s.SetResults rdoc).err = some [.invalidStateTransition s.status .kDone] ∧
      (s.SetResults rdoc).inst.status = s.status ∧
      (s.SetResults rdoc).inst.progress = s.progress ∧
      (s.SetResults rdoc).inst.results = robj) := by
  refine ⟨SetStatus_from_terminal s target ht hne, SetStatus_same s,
    Pause_from_terminal s ht, ?_, ?_, ?_,
    (SetProgress_from_terminal s cd pdoc hcd ht).1,
    (SetProgress_from_terminal s cd pdoc hcd ht).2,
    fun robj hv hd => SetResults_from_terminal s cd rdoc robj hcd ht hv hd⟩
  · rw [SetError_from_terminal s ce ht]
    exact ⟨rfl, rfl, rfl, rfl, rfl⟩
  · intro hna
    rw [Abort_from_terminal s ce ht hna]
    exact ⟨rfl, rfl, rfl, rfl, rfl⟩
  · intro hnc
    exact Cancel_from_terminal s ht hnc

/-- C1 witness: the amended theorem on a concrete expired instance, with
target `kInProgress` and the sample validators. -/
theorem terminal_finality_witness :
    (instanceWithStatus .kExpired).SetStatus .kInProgress =
      { ok := false, inst := instanceWithStatus .kExpired, notes := [], queueOps := [],
        err := some [.invalidStateTransition .kExpired .kInProgress] } :=
  (terminal_finality (instanceWithStatus .kExpired) trivialDefinition
    .kInProgress JDict.nil JDict.nil none rfl rfl (by decide)).1

/-- C3. A `SetStatus` request whose target equals the current status
returns success, changes nothing, and fires no observer notification. -/
theorem idempotent_same_status (s : CommandInstance) :
    s.SetStatus s.status =
      { ok := true, inst := s, notes := [], queueOps := [], err := none } :=
  SetStatus_same s

theorem SetStatus_inst_fields (s : CommandInstance) (t : CommandStatus) :
    (s.SetStatus t).inst.error = s.error ∧
    (s.SetStatus t).inst.progress = s.progress ∧
    (s.SetStatus t).inst.results = s.results := by
  unfold CommandInstance.SetStatus
  split
  · exact ⟨rfl, rfl, rfl⟩
  · split
    · exact ⟨rfl, rfl, rfl⟩
    · split <;> exact ⟨rfl, rfl, rfl⟩

theorem SetStatus_inst_queue (s : CommandInstance) (t : CommandStatus) :
    (s.SetStatus t).inst.RemoveFromQueue = s.RemoveFromQueue := by
  unfold CommandInstance.SetStatus
  split
  · rfl
  · split
    · rfl
    · split <;> rfl

theorem Abort_self (s : CommandInstance) (ce : Option ErrorChain)
    (h : s.status = .kAborted) :
    s.Abort ce =
      { ok := true, inst := { s with error := ce }, notes := [],
        queueOps := CommandInstance.RemoveFromQueue { s with error := ce },
        err := none } := by
  have hs : CommandInstance.SetStatus { s with error := ce } .kAborted =
      { ok := true, inst := { s with error := ce }, notes := [], queueOps := [],
        err := none } := by
    rw [show CommandStatus.kAborted = ({ s with error := ce } : CommandInstance).status
      from h.symm]
    exact SetStatus_same { s with error := ce }
  unfold CommandInstance.Abort
  rw [hs]

theorem Cancel_self (s : CommandInstance) (h : s.status = .kCancelled) :
    s.Cancel =
      { ok := true, inst := s, notes := [], queueOps := s.RemoveFromQueue,
        err := none } := by
  have hs : s.SetStatus .kCancelled =
      { ok := true, inst := s, notes := [], queueOps := [], err := none } := by
    rw [show CommandStatus.kCancelled = s.status from h.symm]
    exact SetStatus_same s
  unfold CommandInstance.Cancel
  rw [hs]

/-- A sample error chain: one validation failure. -/
def sampleError : ErrorChain := [.invalidParameterValue]

/-- C10. `SetError` and `Abort` overwrite the stored error before the
status transition is attempted: after either call the stored error equals
the supplied one (absent when the supplied error is null), even when the
transition itself fails, e.g. from a terminal status. -/
theorem error_replaced_before_transition (s : CommandInstance)
    (ce : Option ErrorChain) :
    (s.SetError ce).inst.error = ce ∧
    (s.Abort ce).inst.error = ce ∧
    (s.SetError none).inst.error = none ∧
    (s.status.isTerminalStatus = true →
      (s.SetError ce).ok = false ∧ (s.SetError ce).inst.error = ce) ∧
    (s.status.isTerminalStatus = true → s.status ≠ .kAborted →
      (s.Abort ce).ok = false ∧ (s.Abort ce).inst.error = ce) := by
  refine ⟨(SetStatus_inst_fields { s with error := ce } .kError).1,
    (SetStatus_inst_fields { s with error := ce } .kAborted).1,
    (SetStatus_inst_fields { s with error := none } .kError).1, ?_, ?_⟩
  · intro ht
    rw [SetError_from_terminal s ce ht]
    exact ⟨rfl, rfl⟩
  · intro ht hna
    rw [Abort_from_terminal s ce ht hna]
    exact ⟨rfl, rfl⟩

/-- C10 witness: the theorem on a concrete expired instance with a
concrete error. -/
theorem error_replaced_before_transition_witness :
    ((instanceWithStatus .kExpired).SetError (some sampleError)).ok = false ∧
    ((instanceWithStatus .kExpired).SetError (some sampleError)).inst.error =
      some sampleError :=
  (error_replaced_before_transition (instanceWithStatus .kExpired)
    (some sampleError)).2.2.2.1 rfl

/-- C9 counterexample. `Abort` on an instance already in the terminal
status `kAborted` succeeds as a same-status no-op instead of failing with
`InvalidStateTransition`; it does still schedule queue removal. -/
theorem abort_terminal_counterexample :
    ((instanceWithStatus .kAborted).Abort none).ok = true ∧
    ((instanceWithStatus .kAborted).Abort none).err = none ∧
    ((instanceWithStatus .kAborted).Abort none).queueOps = ["1"] :=
  ⟨rfl, rfl, rfl⟩

/-- C9 (amended). `Abort` and `Cancel` always schedule `DelayedRemove` on
the owning queue, whatever the transition outcome; from a terminal status
other than the operation's own target status they return failure with
`InvalidStateTransition` while still scheduling removal; from the
operation's own target status they succeed as no-ops, again scheduling
removal. -/
theorem abort_cancel_always_remove (s : CommandInstance)
    (ce : Option ErrorChain) (hq : s.hasQueue = true) :
    (s.Abort ce).queueOps = [s.id] ∧
    (s.Cancel).queueOps = [s.id] ∧
    (s.status.isTerminalStatus = true → s.status ≠ .kAborted →
      (s.Abort ce).ok = false ∧
      (s.Abort ce).err = some [.invalidStateTransition s.status .kAborted]) ∧
    (s.status = .kAborted → (s.Abort ce).ok = true ∧ (s.Abort ce).err = none) ∧
    (s.status.isTerminalStatus = true → s.status ≠ .kCancelled →
      (s.Cancel).ok = false ∧
      (s.Cancel).err = some [.invalidStateTransition s.status .kCancelled]) ∧
    (s.status = .kCancelled → (s.Cancel).ok = true ∧ (s.Cancel).err = none) := by
  refine ⟨?_, ?_, ?_, ?_, ?_, ?_⟩
  · show (CommandInstance.SetStatus { s with error := ce } .kAborted).inst.RemoveFromQueue
      = [s.id]
    rw [SetStatus_inst_queue]
    simp [CommandInstance.RemoveFromQueue, hq]
  · show (s.SetStatus .kCancelled).inst.RemoveFromQueue = [s.id]
    rw [SetStatus_inst_queue]
    simp [CommandInstance.RemoveFromQueue, hq]
  · intro ht hna
    rw [Abort_from_terminal s ce ht hna]
    exact ⟨rfl, rfl⟩
  · intro h
    rw [Abort_self s ce h]
    exact ⟨rfl, rfl⟩
  · intro ht hnc
    rw [Cancel_from_terminal s ht hnc]
    exact ⟨rfl, rfl⟩
  · intro h
    rw [Cancel_self s h]
    exact ⟨rfl, rfl⟩

/-- C9 witness: the amended theorem on a concrete done instance. -/
theorem abort_cancel_always_remove_witness :
    ((instanceWithStatus .kDone).Abort none).queueOps = ["1"] ∧
    ((instanceWithStatus .kDone).Abort none).ok = false ∧
    ((instanceWithStatus .kDone).Abort none).err =
      some [.invalidStateTransition .kDone .kAborted] :=
  ⟨(abort_cancel_always_remove (instanceWithStatus .kDone) none rfl).1,
   ((abort_cancel_always_remove (instanceWithStatus .kDone) none rfl).2.2.1
      rfl (by decide)).1,
   ((abort_cancel_always_remove (instanceWithStatus .kDone) none rfl).2.2.1
      rfl (by decide)).2⟩

/-- C4. For a document that validates against the progress schema,
`SetProgress` attempts the `kInProgress` transition unconditionally: when
the transition fails `SetProgress` returns exactly that failure (even when
the validated value equals the stored progress); when it succeeds, the
stored progress is replaced and a progress-changed notification fired
exactly when the validated value differs from the stored one. -/
theorem set_progress_contract (s : CommandInstance) (cd : CommandDefinition)
    (doc : JDict) (obj : ValueMap)
    (hcd : s.commandDefinition = some cd)
    (hv : cd.validateProgress doc = .ok obj) :
    ((s.SetStatus .kInProgress).ok = false →
      s.SetProgress doc = s.SetStatus .kInProgress) ∧
    ((s.SetStatus .kInProgress).ok = true →
      (s.SetProgress doc).ok = true ∧
      (obj ≠ s.progress →
        (s.SetProgress doc).inst =
          { (s.SetStatus .kInProgress).inst with progress := obj } ∧
        (s.SetProgress doc).notes =
          (s.SetStatus .kInProgress).notes ++ [.onProgressChanged]) ∧
      (obj = s.progress →
        (s.SetProgress doc).inst = (s.SetStatus .kInProgress).inst ∧
        (s.SetProgress doc).notes = (s.SetStatus .kInProgress).notes)) := by
  have hpr : (s.SetStatus .kInProgress).inst.progress = s.progress :=
    (SetStatus_inst_fields s .kInProgress).2.1
  have hunf : s.SetProgress doc =
      (if (s.SetStatus .kInProgress).ok = false then s.SetStatus .kInProgress
       else if obj ≠ (s.SetStatus .kInProgress).inst.progress then
         { ok := true,
           inst := { (s.SetStatus .kInProgress).inst with progress := obj },
           notes := (s.SetStatus .kInProgress).notes ++ [.onProgressChanged],
           queueOps := [], err := none }
       else
         { ok := true, inst := (s.SetStatus .kInProgress).inst,
           notes := (s.SetStatus .kInProgress).notes, queueOps := [],
           err := none }) := by
    simp only [CommandInstance.SetProgress, hcd, hv]
  constructor
  · intro hok
    rw [hunf, if_pos hok]
  · intro hok
    have hok2 : ¬((s.SetStatus .kInProgress).ok = false) := by
      rw [hok]; exact fun h => Bool.noConfusion h
    rw [hunf, if_neg hok2, hpr]
    constructor
    · by_cases hobj : obj = s.progress
      · rw [if_neg (fun h => h hobj)]
      · rw [if_pos hobj]
    · constructor
      · intro hobj
        rw [if_pos hobj]
        exact ⟨rfl, rfl⟩
      · intro hobj
        rw [if_neg (fun h => h hobj)]
        exact ⟨rfl, rfl⟩

/-- C4 witness: the theorem on a concrete queued instance whose progress
schema accepts any document as the empty map. -/
theorem set_progress_contract_witness :
    ((instanceWithStatus .kQueued).SetProgress JDict.nil).ok = true :=
  ((set_progress_contract (instanceWithStatus .kQueued) trivialDefinition
    JDict.nil ValueMap.empty rfl rfl).2 rfl).1

/-- C5 counterexample. On a cancelled instance, a document that validates
against the results schema does not transition the instance to `kDone`:
`SetResults` returns failure and the status stays `kCancelled`. -/
theorem set_results_counterexample :
    resultsDefinition.validateResults JDict.nil = .ok (sampleMap 2) ∧
    (cancelledWithResults.SetResults JDict.nil).ok = false ∧
    (cancelledWithResults.SetResults JDict.nil).inst.status = .kCancelled := by
  refine ⟨rfl, ?_, ?_⟩ <;> decide

/-- C5 (amended). For a document that validates against the results
schema, `SetResults` stores the validated results value (firing a
results-changed notification exactly when the value differs), then
attempts the transition to `kDone` — succeeding unless the current status
is `kCancelled`, `kAborted` or `kExpired` — then schedules removal from
the owning queue regardless of the transition's outcome, returning the
transition's result; for a document that fails validation it returns the
validation error and changes nothing (no results update, no status
change, no queue removal). -/
theorem set_results_contract (s : CommandInstance) (cd : CommandDefinition)
    (doc : JDict) (hcd : s.commandDefinition = some cd) :
    (∀ obj, cd.validateResults doc = .ok obj →
      (s.SetResults doc).inst.results = obj ∧
      (Notification.onResultsChanged ∈ (s.SetResults doc).notes ↔
        obj ≠ s.results) ∧
      (s.SetResults doc).queueOps = (if s.hasQueue = true then [s.id] else []) ∧
      (s.status ≠ .kCancelled → s.status ≠ .kAborted → s.status ≠ .kExpired →
        (s.SetResults doc).ok = true ∧
        (s.SetResults doc).inst.status = .kDone) ∧
      ((s.status = .kCancelled ∨ s.status = .kAborted ∨ s.status = .kExpired) →
        (s.SetResults doc).ok = false ∧
        (s.SetResults doc).err = some [.invalidStateTransition s.status .kDone] ∧
        (s.SetResults doc).inst.status = s.status)) ∧
    (∀ e, cd.validateResults doc = .error e →
      s.SetResults doc =
        { ok := false, inst := s, notes := [], queueOps := [],
          err := some e }) := by
  obtain ⟨sid, snm, sog, scd, spa, spr, sre, sst, ser, shq⟩ := s
  have hcd2 : scd = some cd := hcd
  subst hcd2
  constructor
  · intro obj hv
    by_cases hobj : obj = sre
    · subst hobj
      cases sst <;>
        simp [CommandInstance.SetResults, hv, CommandInstance.SetStatus,
          CommandInstance.RemoveFromQueue]
    · cases sst <;>
        simp [CommandInstance.SetResults, hv, hobj, CommandInstance.SetStatus,
          CommandInstance.RemoveFromQueue]
  · intro e hv
    simp [CommandInstance.SetResults, hv]

/-- A queued instance that stores results `x = 1` and whose results schema
validates any document to `x = 2`. -/
def queuedWithResults : CommandInstance :=
  { instanceWithStatus .kQueued with
      commandDefinition := some resultsDefinition, results := sampleMap 1 }

/-- C5 witness: the amended theorem on a concrete queued instance; the
call succeeds, stores the new results, reaches `kDone`, and schedules
queue removal. -/
theorem set_results_contract_witness :
    (queuedWithResults.SetResults JDict.nil).ok = true ∧
    (queuedWithResults.SetResults JDict.nil).inst.status = .kDone ∧
    (queuedWithResults.SetResults JDict.nil).inst.results = sampleMap 2 ∧
    (queuedWithResults.SetResults JDict.nil).queueOps = ["1"] := by
  have h := (set_results_contract queuedWithResults resultsDefinition
    JDict.nil rfl).1 (sampleMap 2) rfl
  exact ⟨(h.2.2.2.1 (by decide) (by decide) (by decide)).1,
         (h.2.2.2.1 (by decide) (by decide) (by decide)).2,
         h.1,
         h.2.2.1.trans (by decide)⟩

theorem FromJson_not_dict (value : JValue) (origin : CommandOrigin)
    (dictionary : String → Option CommandDefinition)
    (h : value.asDictionary = none) :
    CommandInstance.FromJson value origin dictionary =
      { inst := none, commandId := "", err := some [.objectExpected] } := by
  unfold CommandInstance.FromJson
  rw [h]

theorem FromJson_dict_noname (entries : JDict) (origin : CommandOrigin)
    (dictionary : String → Option CommandDefinition)
    (hn : getDictString entries "name" = none) :
    CommandInstance.FromJson (.dictJ entries) origin dictionary =
      { inst := none, commandId := (getDictString entries "id").getD "",
        err := some [.propertyMissing] } := by
  unfold CommandInstance.FromJson
  simp only [JValue.asDictionary, hn]

theorem FromJson_dict_unknown (entries : JDict) (origin : CommandOrigin)
    (dictionary : String → Option CommandDefinition) (nm : String)
    (hn : getDictString entries "name" = some nm)
    (hd : dictionary nm = none) :
    CommandInstance.FromJson (.dictJ entries) origin dictionary =
      { inst := none, commandId := (getDictString entries "id").getD "",
        err := some [.invalidCommandName nm] } := by
  unfold CommandInstance.FromJson
  simp only [JValue.asDictionary, hn, hd]

theorem FromJson_dict_paramfail (entries : JDict) (origin : CommandOrigin)
    (dictionary : String → Option CommandDefinition) (nm : String)
    (cdef : CommandDefinition) (e : ErrorChain)
    (hn : getDictString entries "name" = some nm)
    (hd : dictionary nm = some cdef)
    (hp : GetCommandParameters entries cdef = .error e) :
    CommandInstance.FromJson (.dictJ entries) origin dictionary =
      { inst := none, commandId := (getDictString entries "id").getD "",
        err := some (.commandFailed nm :: e) } := by
  unfold CommandInstance.FromJson
  simp only [JValue.asDictionary, hn, hd, hp]

theorem FromJson_dict_ok (entries : JDict) (origin : CommandOrigin)
    (dictionary : String → Option CommandDefinition) (nm : String)
    (cdef : CommandDefinition) (params : ValueMap)
    (hn : getDictString entries "name" = some nm)
    (hd : dictionary nm = some cdef)
    (hp : GetCommandParameters entries cdef = .ok params) :
    CommandInstance.FromJson (.dictJ entries) origin dictionary =
      { inst := some { id := (getDictString entries "id").getD "", name := nm,
                       origin := origin, commandDefinition := some cdef,
                       parameters := params },
        commandId := (getDictString entries "id").getD "", err := none } := by
  unfold CommandInstance.FromJson
  simp only [JValue.asDictionary, hn, hd, hp]

/-- C6. Whenever `FromJson` fails it returns no instance together with an
error; the id written through `command_id` is always the best-effort id
extracted from the document (empty when none could be extracted); and a
request naming an unknown command fails with `InvalidCommandName`. -/
theorem from_json_failure (value : JValue) (origin : CommandOrigin)
    (dictionary : String → Option CommandDefinition) :
    ((CommandInstance.FromJson value origin dictionary).inst = none ↔
      (CommandInstance.FromJson value origin dictionary).err ≠ none) ∧
    (CommandInstance.FromJson value origin dictionary).commandId =
      bestEffortId value ∧
    (∀ json name, value = .dictJ json → getDictString json "name" = some name →
      dictionary name = none →
      CommandInstance.FromJson value origin dictionary =
        { inst := none, commandId := bestEffortId value,
          err := some [.invalidCommandName name] }) := by
  cases value with
  | dictJ entries =>
    cases hn : getDictString entries "name" with
    | none =>
      rw [FromJson_dict_noname entries origin dictionary hn]
      refine ⟨by simp, rfl, ?_⟩
      intro json name heq hname hdict
      injection heq with h2
      subst h2
      rw [hn] at hname
      cases hname
    | some nm =>
      cases hd : dictionary nm with
      | none =>
        rw [FromJson_dict_unknown entries origin dictionary nm hn hd]
        refine ⟨by simp, rfl, ?_⟩
        intro json name heq hname hdict
        injection heq with h2
        subst h2
        rw [hn] at hname
        injection hname with h3
        subst h3
        rfl
      | some cdef =>
        cases hp : GetCommandParameters entries cdef with
        | error e =>
          rw [FromJson_dict_paramfail entries origin dictionary nm cdef e hn hd hp]
          refine ⟨by simp, rfl, ?_⟩
          intro json name heq hname hdict
          injection heq with h2
          subst h2
          rw [hn] at hname
          injection hname with h3
          subst h3
          rw [hd] at hdict
          cases hdict
        | ok params =>
          rw [FromJson_dict_ok entries origin dictionary nm cdef params hn hd hp]
          refine ⟨by simp, rfl, ?_⟩
          intro json name heq hname hdict
          injection heq with h2
          subst h2
          rw [hn] at hname
          injection hname with h3
          subst h3
          rw [hd] at hdict
          cases hdict
  | nullJ =>
    exact ⟨by simp [CommandInstance.FromJson, JValue.asDictionary], rfl,
      fun json name heq hname hdict => JValue.noConfusion heq⟩
  | boolJ b =>
    exact ⟨by simp [CommandInstance.FromJson, JValue.asDictionary], rfl,
      fun json name heq hname hdict => JValue.noConfusion heq⟩
  | intJ i =>
    exact ⟨by simp [CommandInstance.FromJson, JValue.asDictionary], rfl,
      fun json name heq hname hdict => JValue.noConfusion heq⟩
  | stringJ str =>
    exact ⟨by simp [CommandInstance.FromJson, JValue.asDictionary], rfl,
      fun json name heq hname hdict => JValue.noConfusion heq⟩
  | listJ items =>
    exact ⟨by simp [CommandInstance.FromJson, JValue.asDictionary], rfl,
      fun json name heq hname hdict => JValue.noConfusion heq⟩

/-- The sample wire document `{"name": "unknown.cmd"}`. -/
def unknownCmdDoc : JDict :=
  JDict.cons "name" (.stringJ "unknown.cmd") JDict.nil

/-- An empty command dictionary: no command name is known. -/
def emptyDictionary : String → Option CommandDefinition := fun _ => none

/-- C6 witness: submitting `{"name": "unknown.cmd"}` against an empty
dictionary fails with `InvalidCommandName` and the empty best-effort id. -/
theorem from_json_failure_witness :
    CommandInstance.FromJson (.dictJ unknownCmdDoc) .kCloud emptyDictionary =
      { inst := none, commandId := "",
        err := some [.invalidCommandName "unknown.cmd"] } :=
  (from_json_failure (.dictJ unknownCmdDoc) .kCloud emptyDictionary).2.2
    unknownCmdDoc "unknown.cmd" rfl (by decide) rfl

theorem jlookup_append_ne (d : JDict) (k : String) (v : JValue) (key : String)
    (hk : key ≠ k) :
    jlookup (d.append (.cons k v .nil)) key = jlookup d key := by
  cases d with
  | nil =>
    simp only [JDict.append, jlookup]
    rw [if_neg (fun h => hk h.symm)]
  | cons k2 v2 rest =>
    simp only [JDict.append, jlookup]
    by_cases h2 : k2 = key
    · rw [if_pos h2, if_pos h2]
    · rw [if_neg h2, if_neg h2, jlookup_append_ne rest k v key hk]

theorem jlookup_append_self (d : JDict) (k : String) (v : JValue)
    (h : jlookup d k = none) :
    jlookup (d.append (.cons k v .nil)) k = some v := by
  cases d with
  | nil => simp [JDict.append, jlookup]
  | cons k2 v2 rest =>
    simp only [jlookup] at h
    simp only [JDict.append, jlookup]
    by_cases h2 : k2 = k
    · rw [if_pos h2] at h
      cases h
    · rw [if_neg h2] at h
      rw [if_neg h2]
      exact jlookup_append_self rest k v h

theorem getDictString_append_ne (d : JDict) (k : String) (v : JValue)
    (key : String) (hk : key ≠ k) :
    getDictString (d.append (.cons k v .nil)) key = getDictString d key := by
  unfold getDictString
  rw [jlookup_append_ne d k v key hk]

/-- C7. A request with no `parameters` key is handled exactly as the same
request with `parameters` set to the empty object; and a request whose
`parameters` value is not an object fails with an object-expected error
(wrapped in the command-failed error added by `FromJson`). -/
theorem parameters_defaulting (json : JDict) (origin : CommandOrigin)
    (dictionary : String → Option CommandDefinition) :
    (jlookup json "parameters" = none →
      CommandInstance.FromJson (.dictJ json) origin dictionary =
        CommandInstance.FromJson
          (.dictJ (json.append (.cons "parameters" (.dictJ .nil) .nil)))
          origin dictionary) ∧
    (∀ v name cd, jlookup json "parameters" = some v → v.asDictionary = none →
      getDictString json "name" = some name → dictionary name = some cd →
      CommandInstance.FromJson (.dictJ json) origin dictionary =
        { inst := none, commandId := (getDictString json "id").getD "",
          err := some [.commandFailed name, .objectExpected] }) := by
  constructor
  · intro hp
    have hgp : ∀ cdef : CommandDefinition,
        GetCommandParameters
          (json.append (.cons "parameters" (.dictJ .nil) .nil)) cdef =
        GetCommandParameters json cdef := by
      intro cdef
      unfold GetCommandParameters
      rw [jlookup_append_self json "parameters" (.dictJ .nil) hp, hp]
      rfl
    have hid := getDictString_append_ne json "parameters" (.dictJ .nil) "id"
      (by decide)
    have hnm := getDictString_append_ne json "parameters" (.dictJ .nil) "name"
      (by decide)
    cases hn : getDictString json "name" with
    | none =>
      rw [FromJson_dict_noname json origin dictionary hn,
        FromJson_dict_noname _ origin dictionary (hnm.trans hn), hid]
    | some nm =>
      cases hd : dictionary nm with
      | none =>
        rw [FromJson_dict_unknown json origin dictionary nm hn hd,
          FromJson_dict_unknown _ origin dictionary nm (hnm.trans hn) hd, hid]
      | some cdef =>
        cases hgpc : GetCommandParameters json cdef with
        | error e =>
          rw [FromJson_dict_paramfail json origin dictionary nm cdef e hn hd hgpc,
            FromJson_dict_paramfail _ origin dictionary nm cdef e (hnm.trans hn)
              hd ((hgp cdef).trans hgpc), hid]
        | ok params =>
          rw [FromJson_dict_ok json origin dictionary nm cdef params hn hd hgpc,
            FromJson_dict_ok _ origin dictionary nm cdef params (hnm.trans hn)
              hd ((hgp cdef).trans hgpc), hid]
  · intro v name cd hp hv hn hd
    have hgp : GetCommandParameters json cd = .error [.objectExpected] := by
      simp only [GetCommandParameters, hp, hv]
    exact FromJson_dict_paramfail json origin dictionary name cd
      [.objectExpected] hn hd hgp

/-- The sample request `{"id": "1", "name": "lock.setConfig"}`, with no
`parameters` key. -/
def noParamsDoc : JDict :=
  JDict.cons "id" (.stringJ "1")
    (JDict.cons "name" (.stringJ "lock.setConfig") JDict.nil)

/-- A dictionary knowing only `lock.setConfig`, with the sample schemas. -/
def lockDictionary : String → Option CommandDefinition := fun nm =>
  if nm = "lock.setConfig" then some trivialDefinition else none

/-- C7 witness: the theorem on the concrete no-parameters request, whose
handling coincides with the same request carrying empty parameters. -/
theorem parameters_defaulting_witness :
    CommandInstance.FromJson (.dictJ noParamsDoc) .kLocal lockDictionary =
      CommandInstance.FromJson
        (.dictJ (noParamsDoc.append
          (.cons "parameters" (.dictJ .nil) .nil))) .kLocal lockDictionary :=
  (parameters_defaulting noParamsDoc .kLocal lockDictionary).1 (by decide)

/-- C8. `ToJson` emits exactly the keys `id`, `name`, `parameters`,
`progress`, `results`, `state` — plus `error` exactly when an error is
recorded — and the `state` value is the status string, one of the eight
strings of the status table. -/
theorem to_json_shape (s : CommandInstance) :
    (s.ToJson).keys =
      ["id", "name", "parameters", "progress", "results", "state"] ++
        (if s.error = none then [] else ["error"]) ∧
    jlookup s.ToJson "state" = some (.stringJ (statusToString s.status)) ∧
    statusToString s.status ∈
      ["queued", "inProgress", "paused", "error", "done", "cancelled",
       "aborted", "expired"] ∧
    (jlookup s.ToJson "error" = none ↔ s.error = none) := by
  refine ⟨?_, ?_, ?_, ?_⟩
  · cases he : s.error <;>
      simp [CommandInstance.ToJson, JDict.keys, he]
  · simp [CommandInstance.ToJson, jlookup]
  · cases s.status <;> simp [statusToString]
  · cases he : s.error <;>
      simp [CommandInstance.ToJson, jlookup, he]

/-- C2 counterexample. On an instance whose status is `kQueued`, a
`SetStatus` request targeting `kQueued` succeeds with no error (the
same-status check fires before the no-re-queue check), so transitioning
to `Queued` does not fail from every status. -/
theorem no_requeue_counterexample :
    ((instanceWithStatus .kQueued).SetStatus .kQueued).ok = true ∧
    ((instanceWithStatus .kQueued).SetStatus .kQueued).err = none := by
  constructor <;> rfl

/-- C2 (amended). From every status other than `kQueued`, a transition to
`kQueued` fails with `InvalidStateTransition` and changes nothing; from
`kQueued` itself the request is a same-status no-op that succeeds. -/
theorem no_requeue (s : CommandInstance) :
    (s.status ≠ .kQueued →
      s.SetStatus .kQueued =
        { ok := false, inst := s, notes := [], queueOps := [],
          err := some [.invalidStateTransition s.status .kQueued] }) ∧
    (s.status = .kQueued →
      s.SetStatus .kQueued =
        { ok := true, inst := s, notes := [], queueOps := [], err := none }) := by
  constructor
  · intro h
    unfold CommandInstance.SetStatus
    rw [if_neg (fun hcontra => h hcontra.symm), if_pos rfl]
  · intro h
    rw [← h]
    exact SetStatus_same s

/-- C2 witness: the amended theorem at a concrete paused instance and at a
concrete queued instance. -/
theorem no_requeue_witness :
    (instanceWithStatus .kPaused).SetStatus .kQueued =
      { ok := false, inst := instanceWithStatus .kPaused, notes := [], queueOps := [],
        err := some [.invalidStateTransition .kPaused .kQueued] } ∧
    (instanceWithStatus .kQueued).SetStatus .kQueued =
      { ok := true, inst := instanceWithStatus .kQueued, notes := [],
        queueOps := [], err := none } :=
  ⟨(no_requeue (instanceWithStatus .kPaused)).1 (by decide),
   (no_requeue (instanceWithStatus .kQueued)).2 rfl⟩

end Weave
